import Mathlib

/-!
Verification of the libfsapfs file system B-tree node decoder
(`libfsapfs_file_system_btree_read_data` in
src/libfsapfs/libfsapfs_file_system_btree.c).

The decoder is embedded shallowly: the byte buffer is a function
`Nat → Nat` (each value taken mod 256, as the C buffer holds `uint8_t`),
machine integers are `Nat` with explicit `% 65536` where the C uses
`uint16_t` arithmetic, and the fallible decode returns an explicit
result value.  Besides the decode result, the embedding records the
(offset, length) slices of the buffer the C code dereferences and the
trace of intermediate header/footer allocations and frees, so that
memory-safety and cleanup claims can be stated.
-/

namespace LibFsApfs

/-- Size in bytes of the on-disk object header `fsapfs_object_t`:
checksum(8), identifier(8), version(8), type(4), subtype(4). -/
def objectHeaderSize : Nat := 32

/-- Modelled from the spec: size of `fsapfs_btree_header_t` (the header file
fsapfs_btree.h is not under src/).  The spec lists flags(2), level(2),
number_of_keys(4), entries_offset(2), entries_size(2), unused_offset(2),
unused_size(2) plus reserved bytes; the fixed size is taken as 24 bytes
(16 bytes of listed fields plus 8 reserved). -/
def btreeHeaderSize : Nat := 24

/-- Modelled from the spec: size of `fsapfs_btree_footer_t` (fsapfs_btree.h is
not under src/).  The spec only says the footer is fixed size with
key_size(2), value_size(2), number_of_entries(8) and other node metadata;
the fixed size is taken as 40 bytes. -/
def btreeFooterSize : Nat := 40

/-- Size in bytes of one TOC record `fsapfs_btree_variable_size_entry_t`:
key_offset(2), key_size(2), value_offset(2), value_size(2). -/
def tocRecordSize : Nat := 8

/-- Largest `data_size` the decoder accepts (`SSIZE_MAX` on an LP64 host). -/
def ssizeMax : Nat := 2 ^ 63 - 1

/-- Little-endian value of `len` bytes starting at `off`; each buffer cell is
reduced mod 256 since the C buffer holds `uint8_t` values.  This models the
`byte_stream_copy_to_uintN_little_endian` macros. -/
def byte_stream_copy_le (data : Nat → Nat) (off : Nat) : Nat → Nat
  | 0 => 0
  | len + 1 => data off % 256 + 256 * byte_stream_copy_le data (off + 1) len

/-- Decoded fields of the B-tree node header (`libfsapfs_btree_header_t`). -/
structure BtreeHeader where
  flags : Nat
  level : Nat
  number_of_keys : Nat
  entries_data_offset : Nat
  entries_data_size : Nat
  unused_data_offset : Nat
  unused_data_size : Nat
deriving DecidableEq

/-- Modelled from the spec: `libfsapfs_btree_header_read_data` (its source file
libfsapfs_btree_header.c is not under src/) decodes the little-endian header
fields, in the spec's field order, from the slice starting at `off`. -/
def libfsapfs_btree_header_read_data (data : Nat → Nat) (off : Nat) : BtreeHeader :=
  { flags := byte_stream_copy_le data off 2
    level := byte_stream_copy_le data (off + 2) 2
    number_of_keys := byte_stream_copy_le data (off + 4) 4
    entries_data_offset := byte_stream_copy_le data (off + 8) 2
    entries_data_size := byte_stream_copy_le data (off + 10) 2
    unused_data_offset := byte_stream_copy_le data (off + 12) 2
    unused_data_size := byte_stream_copy_le data (off + 14) 2 }

/-- Decoded fields of the B-tree node footer (`libfsapfs_btree_footer_t`). -/
structure BtreeFooter where
  key_size : Nat
  value_size : Nat
  number_of_entries : Nat
deriving DecidableEq

/-- Modelled from the spec: `libfsapfs_btree_footer_read_data` (its source file
libfsapfs_btree_footer.c is not under src/) decodes key_size(2),
value_size(2) and number_of_entries(8) little-endian from the footer slice
starting at `off`. -/
def libfsapfs_btree_footer_read_data (data : Nat → Nat) (off : Nat) : BtreeFooter :=
  { key_size := byte_stream_copy_le data off 2
    value_size := byte_stream_copy_le data (off + 2) 2
    number_of_entries := byte_stream_copy_le data (off + 4) 8 }

/-- One resolved TOC entry: absolute key and value offsets and sizes, as the
loop body of `libfsapfs_file_system_btree_read_data` computes them. -/
structure ResolvedEntry where
  keyOffset : Nat
  keySize : Nat
  valueOffset : Nat
  valueSize : Nat
deriving DecidableEq

/-- Everything the successful decode computed: the decoded header and footer
and the ordered sequence of resolved TOC entries. -/
structure DecodedNode where
  header : BtreeHeader
  footer : BtreeFooter
  entries : List ResolvedEntry
deriving DecidableEq

/-- Error kinds of the decoder, following the spec taxonomy.  The C error
codes map as: ARGUMENT_ERROR_INVALID_VALUE and RUNTIME_ERROR_VALUE_MISSING to
`argumentError`, RUNTIME_ERROR_VALUE_OUT_OF_BOUNDS to `boundsError`,
RUNTIME_ERROR_UNSUPPORTED_VALUE to `unsupportedFormat`, IO errors to
`ioError`. -/
inductive ErrorKind where
  | argumentError
  | boundsError
  | unsupportedFormat
  | ioError
deriving DecidableEq

/-- Outcome of a fallible decode stage. -/
inductive DResult (α : Type) where
  | ok (val : α)
  | err (e : ErrorKind)
deriving DecidableEq

/-- Allocation events of the intermediate B-tree header and footer objects
created and released by `libfsapfs_file_system_btree_read_data`. -/
inductive AllocEvent where
  | allocHeader
  | freeHeader
  | allocFooter
  | freeFooter
deriving DecidableEq

/-- Modelled from the spec: the `libfsapfs_file_system_btree_t` aggregate (its
struct definition in libfsapfs_file_system_btree.h is not under src/).  Per
the spec's Node Aggregate it can hold a decoded header, footer and resolved
entries; `libfsapfs_file_system_btree_initialize` zero-clears it. -/
structure FileSystemBtree where
  header : Option BtreeHeader
  footer : Option BtreeFooter
  entries : List ResolvedEntry
deriving DecidableEq

/-- The zero-cleared aggregate produced by
`libfsapfs_file_system_btree_initialize` (which `memory_set`s the newly
allocated structure to zero). -/
def libfsapfs_file_system_btree_zeroed : FileSystemBtree :=
  { header := none, footer := none, entries := [] }

/-- The bounds-accounting chain of `libfsapfs_file_system_btree_read_data`
(lines 494-545): starting from the remaining size it checks and subtracts,
in this order, the entries data offset (rejected when `>=` remaining), the
entries data size (rejected when `>` remaining), the unused data offset
(rejected when `>=` remaining) and the unused data size (rejected when `>`
remaining); it returns the final remaining size. -/
def accounting_chain (hdr : BtreeHeader) (remaining : Nat) : DResult Nat :=
  if hdr.entries_data_offset ≥ remaining then DResult.err ErrorKind.boundsError
  else
    let r1 := remaining - hdr.entries_data_offset
    if hdr.entries_data_size > r1 then DResult.err ErrorKind.boundsError
    else
      let r2 := r1 - hdr.entries_data_size
      if hdr.unused_data_offset ≥ r2 then DResult.err ErrorKind.boundsError
      else
        let r3 := r2 - hdr.unused_data_offset
        if hdr.unused_data_size > r3 then DResult.err ErrorKind.boundsError
        else DResult.ok (r3 - hdr.unused_data_size)

/-- The TOC resolution loop of `libfsapfs_file_system_btree_read_data`
(lines 614-726).  `entriesAnchor` is the `uint16_t` local variable
`entries_data_offset` (line 611), `footerOff` the `uint16_t` local
`footer_offset` (line 612), `entriesSize` the header's entries data size,
`dataOffset` the running `size_t` position of the next TOC record.  Per
iteration it reads one 8-byte TOC record, forms the absolute key offset in
`uint16_t` arithmetic (hence `% 65536`), bounds-checks it, forms the
absolute value offset by `uint16_t` subtraction from `footerOff`,
bounds-checks it, and recurses; the second component records the buffer
slices dereferenced. -/
def resolve_entries (data : Nat → Nat) (dataSize entriesAnchor footerOff entriesSize : Nat) :
    Nat → Nat → DResult (List ResolvedEntry) × List (Nat × Nat)
  | 0, _ => (DResult.ok [], [])
  | count + 1, dataOffset =>
      let kdo := byte_stream_copy_le data dataOffset 2
      let kds := byte_stream_copy_le data (dataOffset + 2) 2
      let vdo := byte_stream_copy_le data (dataOffset + 4) 2
      let vds := byte_stream_copy_le data (dataOffset + 6) 2
      let keyOff := (kdo + entriesAnchor + entriesSize) % 65536
      if keyOff > dataSize ∨ kds > dataSize - keyOff then
        (DResult.err ErrorKind.boundsError, [(dataOffset, tocRecordSize)])
      else
        let valOff := (footerOff + 65536 - vdo) % 65536
        if valOff > dataSize ∨ vds > dataSize - valOff then
          (DResult.err ErrorKind.boundsError, [(dataOffset, tocRecordSize), (keyOff, kds)])
        else
          match resolve_entries data dataSize entriesAnchor footerOff entriesSize count
              (dataOffset + tocRecordSize) with
          | (DResult.ok rest, rds) =>
              (DResult.ok (ResolvedEntry.mk keyOff kds valOff vds :: rest),
               (dataOffset, tocRecordSize) :: (keyOff, kds) :: (valOff, vds) :: rds)
          | (DResult.err e, rds) =>
              (DResult.err e,
               (dataOffset, tocRecordSize) :: (keyOff, kds) :: (valOff, vds) :: rds)

/-- Result of the decode after the null-handle check: the decode outcome, the
(offset, length) buffer slices dereferenced, and the trace of intermediate
header/footer allocations and frees. -/
structure CoreResult where
  result : DResult DecodedNode
  reads : List (Nat × Nat)
  events : List AllocEvent
deriving DecidableEq

/-- Buffer slices dereferenced once the B-tree header has been decoded. -/
def hdrReads : List (Nat × Nat) := [(24, 4), (28, 4), (objectHeaderSize, btreeHeaderSize)]

/-- Buffer slices dereferenced once the footer has been decoded. -/
def ftrReads (dataSize : Nat) : List (Nat × Nat) :=
  hdrReads ++ [(dataSize - btreeFooterSize, btreeFooterSize)]

/-- Allocation trace on paths where only the B-tree header was allocated: the
error label frees it before the error propagates. -/
def hdrEvents : List AllocEvent := [AllocEvent.allocHeader, AllocEvent.freeHeader]

/-- Allocation trace once both the header and the footer were allocated: the
footer is freed first, then the header, both on the error label and on the
success path. -/
def fullEvents : List AllocEvent :=
  [AllocEvent.allocHeader, AllocEvent.allocFooter, AllocEvent.freeFooter, AllocEvent.freeHeader]

/-- The body of `libfsapfs_file_system_btree_read_data` after the
file-system-B-tree null check (lines 307-768), which never touches the
aggregate structure: null data check, data size check, object type and
subtype checks, header decode and flags check, the bounds-accounting chain,
footer decode with its key/value size and entry count checks, and the TOC
resolution loop, in source order, together with the dereferenced slices and
the allocation event trace (the error label frees the footer, then the
header; the success path does the same). -/
def read_data_core (dataOpt : Option (Nat → Nat)) (dataSize : Nat) : CoreResult :=
  match dataOpt with
  | none => { result := DResult.err ErrorKind.argumentError, reads := [], events := [] }
  | some data =>
      if dataSize < objectHeaderSize ∨ ssizeMax < dataSize then
        { result := DResult.err ErrorKind.boundsError, reads := [], events := [] }
      else if byte_stream_copy_le data 24 4 ≠ 2 then
        { result := DResult.err ErrorKind.unsupportedFormat, reads := [(24, 4)], events := [] }
      else if byte_stream_copy_le data 28 4 ≠ 14 then
        { result := DResult.err ErrorKind.unsupportedFormat,
          reads := [(24, 4), (28, 4)], events := [] }
      else if dataSize < objectHeaderSize + btreeHeaderSize then
        { result := DResult.err ErrorKind.boundsError,
          reads := [(24, 4), (28, 4)], events := [] }
      else if (libfsapfs_btree_header_read_data data objectHeaderSize).flags ≠ 3 then
        { result := DResult.err ErrorKind.unsupportedFormat,
          reads := hdrReads, events := hdrEvents }
      else if dataSize < objectHeaderSize + btreeHeaderSize + btreeFooterSize then
        { result := DResult.err ErrorKind.boundsError, reads := hdrReads, events := hdrEvents }
      else
        match accounting_chain (libfsapfs_btree_header_read_data data objectHeaderSize)
            (dataSize - (objectHeaderSize + btreeHeaderSize) - btreeFooterSize) with
        | DResult.err e =>
            { result := DResult.err e, reads := hdrReads, events := hdrEvents }
        | DResult.ok _ =>
            if (libfsapfs_btree_footer_read_data data (dataSize - btreeFooterSize)).key_size
                ≠ 0 then
              { result := DResult.err ErrorKind.boundsError,
                reads := ftrReads dataSize, events := fullEvents }
            else if (libfsapfs_btree_footer_read_data data
                (dataSize - btreeFooterSize)).value_size ≠ 0 then
              { result := DResult.err ErrorKind.boundsError,
                reads := ftrReads dataSize, events := fullEvents }
            else if (libfsapfs_btree_header_read_data data
                  objectHeaderSize).entries_data_size / tocRecordSize <
                (libfsapfs_btree_footer_read_data data
                  (dataSize - btreeFooterSize)).number_of_entries then
              { result := DResult.err ErrorKind.boundsError,
                reads := ftrReads dataSize, events := fullEvents }
            else
              match resolve_entries data dataSize
                  (((libfsapfs_btree_header_read_data data objectHeaderSize).entries_data_offset
                    + (objectHeaderSize + btreeHeaderSize)) % 65536)
                  ((dataSize - btreeFooterSize) % 65536)
                  (libfsapfs_btree_header_read_data data objectHeaderSize).entries_data_size
                  (libfsapfs_btree_footer_read_data data
                    (dataSize - btreeFooterSize)).number_of_entries
                  (objectHeaderSize + btreeHeaderSize +
                    (libfsapfs_btree_header_read_data data objectHeaderSize).entries_data_offset)
                  with
              | (DResult.err e, rds) =>
                  { result := DResult.err e,
                    reads := ftrReads dataSize ++ rds, events := fullEvents }
              | (DResult.ok entries, rds) =>
                  { result := DResult.ok
                      ⟨libfsapfs_btree_header_read_data data objectHeaderSize,
                       libfsapfs_btree_footer_read_data data (dataSize - btreeFooterSize),
                       entries⟩,
                    reads := ftrReads dataSize ++ rds, events := fullEvents }

/-- Full result of `libfsapfs_file_system_btree_read_data`: the decode
outcome, the file system B-tree aggregate as the call leaves it, the
dereferenced buffer slices, and the allocation event trace. -/
structure RunResult where
  result : DResult DecodedNode
  fsBtree : Option FileSystemBtree
  reads : List (Nat × Nat)
  events : List AllocEvent
deriving DecidableEq

/-- `libfsapfs_file_system_btree_read_data` (lines 269-769).  `none` for the
aggregate or the data models a NULL pointer.  After the null-handle check the
function never references the aggregate again, so the core result is paired
with the unchanged aggregate. -/
def libfsapfs_file_system_btree_read_data (fsBtreeOpt : Option FileSystemBtree)
    (dataOpt : Option (Nat → Nat)) (dataSize : Nat) : RunResult :=
  match fsBtreeOpt with
  | none =>
      { result := DResult.err ErrorKind.argumentError, fsBtree := none, reads := [], events := [] }
  | some fs =>
      let core := read_data_core dataOpt dataSize
      { result := core.result, fsBtree := some fs, reads := core.reads, events := core.events }

/-! ### Basic lemmas about the embedded primitives -/

theorem byte_stream_copy_le_lt (data : Nat → Nat) (off : Nat) :
    ∀ len, byte_stream_copy_le data off len < 256 ^ len := by
  intro len
  induction len generalizing off with
  | zero => simp [byte_stream_copy_le]
  | succ k ih =>
      have hb : data off % 256 < 256 := Nat.mod_lt _ (by norm_num)
      have hr := ih (off + 1)
      calc data off % 256 + 256 * byte_stream_copy_le data (off + 1) k
          ≤ 255 + 256 * byte_stream_copy_le data (off + 1) k := by omega
        _ < 256 * (byte_stream_copy_le data (off + 1) k + 1) := by omega
        _ ≤ 256 * 256 ^ k := by
            exact Nat.mul_le_mul_left _ (by omega)
        _ = 256 ^ (k + 1) := by ring

theorem byte_stream_copy_le_congr (d1 d2 : Nat → Nat) (n : Nat)
    (hago : ∀ i, i < n → d1 i = d2 i) (off : Nat) :
    ∀ len, off + len ≤ n →
      byte_stream_copy_le d1 off len = byte_stream_copy_le d2 off len := by
  intro len
  induction len generalizing off with
  | zero => intro _; simp [byte_stream_copy_le]
  | succ k ih =>
      intro hle
      have h0 : d1 off = d2 off := hago off (by omega)
      have hrest := ih (off + 1) (by omega)
      simp only [byte_stream_copy_le, h0, hrest]

theorem header_read_congr (d1 d2 : Nat → Nat) (n : Nat)
    (hago : ∀ i, i < n → d1 i = d2 i) (off : Nat) (hle : off + 16 ≤ n) :
    libfsapfs_btree_header_read_data d1 off = libfsapfs_btree_header_read_data d2 off := by
  unfold libfsapfs_btree_header_read_data
  have h := byte_stream_copy_le_congr d1 d2 n hago
  simp only [h off 2 (by omega), h (off + 2) 2 (by omega), h (off + 4) 4 (by omega),
    h (off + 8) 2 (by omega), h (off + 10) 2 (by omega), h (off + 12) 2 (by omega),
    h (off + 14) 2 (by omega)]

theorem footer_read_congr (d1 d2 : Nat → Nat) (n : Nat)
    (hago : ∀ i, i < n → d1 i = d2 i) (off : Nat) (hle : off + 12 ≤ n) :
    libfsapfs_btree_footer_read_data d1 off = libfsapfs_btree_footer_read_data d2 off := by
  unfold libfsapfs_btree_footer_read_data
  have h := byte_stream_copy_le_congr d1 d2 n hago
  simp only [h off 2 (by omega), h (off + 2) 2 (by omega), h (off + 4) 8 (by omega)]

/-! ### Lemmas about the accounting chain -/

theorem accounting_chain_ok_bounds (hdr : BtreeHeader) (rem r : Nat)
    (h : accounting_chain hdr rem = DResult.ok r) :
    hdr.entries_data_offset < rem ∧
    hdr.entries_data_size ≤ rem - hdr.entries_data_offset ∧
    hdr.unused_data_offset < rem - hdr.entries_data_offset - hdr.entries_data_size ∧
    hdr.unused_data_size ≤
      rem - hdr.entries_data_offset - hdr.entries_data_size - hdr.unused_data_offset ∧
    r = rem - hdr.entries_data_offset - hdr.entries_data_size -
        hdr.unused_data_offset - hdr.unused_data_size := by
  unfold accounting_chain at h
  dsimp only at h
  split at h
  · cases h
  · split at h
    · cases h
    · split at h
      · cases h
      · split at h
        · cases h
        · simp only [DResult.ok.injEq] at h
          omega

theorem accounting_chain_ok_of (hdr : BtreeHeader) (rem : Nat)
    (h1 : hdr.entries_data_offset < rem)
    (h2 : hdr.entries_data_size ≤ rem - hdr.entries_data_offset)
    (h3 : hdr.unused_data_offset < rem - hdr.entries_data_offset - hdr.entries_data_size)
    (h4 : hdr.unused_data_size ≤
      rem - hdr.entries_data_offset - hdr.entries_data_size - hdr.unused_data_offset) :
    accounting_chain hdr rem =
      DResult.ok (rem - hdr.entries_data_offset - hdr.entries_data_size -
        hdr.unused_data_offset - hdr.unused_data_size) := by
  unfold accounting_chain
  rw [if_neg (by omega), if_neg (by omega), if_neg (by omega), if_neg (by omega)]

theorem accounting_chain_err_of (hdr : BtreeHeader) (rem : Nat)
    (h : ¬ (hdr.entries_data_offset < rem ∧
      hdr.entries_data_size ≤ rem - hdr.entries_data_offset ∧
      hdr.unused_data_offset < rem - hdr.entries_data_offset - hdr.entries_data_size ∧
      hdr.unused_data_size ≤
        rem - hdr.entries_data_offset - hdr.entries_data_size - hdr.unused_data_offset)) :
    accounting_chain hdr rem = DResult.err ErrorKind.boundsError := by
  unfold accounting_chain
  by_cases c1 : hdr.entries_data_offset ≥ rem
  · rw [if_pos c1]
  · rw [if_neg c1]
    by_cases c2 : hdr.entries_data_size > rem - hdr.entries_data_offset
    · rw [if_pos c2]
    · rw [if_neg c2]
      by_cases c3 : hdr.unused_data_offset ≥ rem - hdr.entries_data_offset - hdr.entries_data_size
      · rw [if_pos c3]
      · rw [if_neg c3]
        by_cases c4 : hdr.unused_data_size >
            rem - hdr.entries_data_offset - hdr.entries_data_size - hdr.unused_data_offset
        · rw [if_pos c4]
        · exact absurd ⟨by omega, by omega, by omega, by omega⟩ h

/-! ### Lemmas about the TOC resolution loop -/

theorem resolve_entries_reads_bound (data : Nat → Nat) (dataSize anchor fo es : Nat) :
    ∀ count dataOffset, dataOffset + tocRecordSize * count ≤ dataSize →
      ∀ o l, (o, l) ∈ (resolve_entries data dataSize anchor fo es count dataOffset).2 →
        o + l ≤ dataSize := by
  intro count
  induction count with
  | zero => intro dataOffset _ o l hm; simp [resolve_entries] at hm
  | succ k ih =>
      intro dataOffset hb o l hm
      have hrec : dataOffset + tocRecordSize ≤ dataSize := by
        simp only [tocRecordSize] at hb ⊢; omega
      have hrecb : (dataOffset + tocRecordSize) + tocRecordSize * k ≤ dataSize := by
        simp only [tocRecordSize] at hb ⊢; omega
      simp only [resolve_entries] at hm
      split at hm
      · simp only [List.mem_singleton, Prod.mk.injEq] at hm
        omega
      · rename_i hkey
        push_neg at hkey
        split at hm
        · simp only [List.mem_cons, List.mem_singleton, Prod.mk.injEq,
            List.not_mem_nil, or_false] at hm
          rcases hm with hm | hm <;> omega
        · rename_i hval
          push_neg at hval
          split at hm
          · rename_i rest rds hrest
            simp only [List.mem_cons] at hm
            rcases hm with hm | hm | hm | hm
            · simp only [Prod.mk.injEq] at hm; omega
            · simp only [Prod.mk.injEq] at hm; omega
            · simp only [Prod.mk.injEq] at hm; omega
            · have := ih (dataOffset + tocRecordSize) hrecb o l
              rw [hrest] at this
              exact this hm
          · rename_i e rds hrest
            simp only [List.mem_cons] at hm
            rcases hm with hm | hm | hm | hm
            · simp only [Prod.mk.injEq] at hm; omega
            · simp only [Prod.mk.injEq] at hm; omega
            · simp only [Prod.mk.injEq] at hm; omega
            · have := ih (dataOffset + tocRecordSize) hrecb o l
              rw [hrest] at this
              exact this hm

theorem resolve_entries_congr (d1 d2 : Nat → Nat) (n : Nat)
    (hago : ∀ i, i < n → d1 i = d2 i) (anchor fo es : Nat) :
    ∀ count dataOffset, dataOffset + tocRecordSize * count ≤ n →
      resolve_entries d1 n anchor fo es count dataOffset =
      resolve_entries d2 n anchor fo es count dataOffset := by
  intro count
  induction count with
  | zero => intro dataOffset _; simp [resolve_entries]
  | succ k ih =>
      intro dataOffset hb
      have h8 : dataOffset + 8 ≤ n := by simp only [tocRecordSize] at hb; omega
      have e1 := byte_stream_copy_le_congr d1 d2 n hago dataOffset 2 (by omega)
      have e2 := byte_stream_copy_le_congr d1 d2 n hago (dataOffset + 2) 2 (by omega)
      have e3 := byte_stream_copy_le_congr d1 d2 n hago (dataOffset + 4) 2 (by omega)
      have e4 := byte_stream_copy_le_congr d1 d2 n hago (dataOffset + 6) 2 (by omega)
      have erec := ih (dataOffset + tocRecordSize)
        (by simp only [tocRecordSize] at hb ⊢; omega)
      simp only [resolve_entries, e1, e2, e3, e4, erec]

theorem resolve_entries_ok_spec (data : Nat → Nat) (dataSize anchor fo es : Nat) :
    ∀ count dataOffset entries,
      (resolve_entries data dataSize anchor fo es count dataOffset).1 = DResult.ok entries →
      entries.length = count ∧
      ∀ i, i < count → ∃ e, entries.get? i = some e ∧
        e.keyOffset =
          (byte_stream_copy_le data (dataOffset + tocRecordSize * i) 2 + anchor + es) % 65536 ∧
        e.keySize = byte_stream_copy_le data (dataOffset + tocRecordSize * i + 2) 2 ∧
        e.valueOffset = (fo + 65536 -
          byte_stream_copy_le data (dataOffset + tocRecordSize * i + 4) 2) % 65536 ∧
        e.valueSize = byte_stream_copy_le data (dataOffset + tocRecordSize * i + 6) 2 ∧
        e.keyOffset ≤ dataSize ∧ e.keySize ≤ dataSize - e.keyOffset ∧
        e.valueOffset ≤ dataSize ∧ e.valueSize ≤ dataSize - e.valueOffset := by
  intro count
  induction count with
  | zero =>
      intro dataOffset entries h
      simp only [resolve_entries, DResult.ok.injEq] at h
      subst h
      exact ⟨rfl, by omega⟩
  | succ k ih =>
      intro dataOffset entries h
      simp only [resolve_entries] at h
      split at h
      · cases h
      · rename_i hkey
        push_neg at hkey
        split at h
        · cases h
        · rename_i hval
          push_neg at hval
          split at h
          · rename_i rest rds hrest
            simp only [DResult.ok.injEq] at h
            subst h
            have hrest1 :
                (resolve_entries data dataSize anchor fo es k (dataOffset + tocRecordSize)).1 =
                  DResult.ok rest := by rw [hrest]
            obtain ⟨hlen, hspec⟩ := ih (dataOffset + tocRecordSize) rest hrest1
            constructor
            · simp [hlen]
            · intro i hi
              match i with
              | 0 =>
                  refine ⟨_, rfl, ?_, ?_, ?_, ?_, ?_, ?_, ?_, ?_⟩ <;>
                    simp only [Nat.mul_zero, Nat.add_zero] <;> omega
              | Nat.succ j =>
                  obtain ⟨e, hge, hprops⟩ := hspec j (by omega)
                  refine ⟨e, ?_, ?_⟩
                  · simpa using hge
                  · have harith : ∀ c : Nat,
                        dataOffset + tocRecordSize * (j + 1) + c =
                          dataOffset + tocRecordSize + tocRecordSize * j + c := by
                      intro c; simp only [tocRecordSize]; omega
                    have h0 := harith 0
                    simp only [Nat.add_zero] at h0
                    rw [h0]
                    exact hprops
          · cases h

/-! ### Inversion of a successful decode -/

theorem read_data_core_ok_inv (data : Nat → Nat) (n : Nat) (node : DecodedNode)
    (h : (read_data_core (some data) n).result = DResult.ok node) :
    (objectHeaderSize ≤ n ∧ n ≤ ssizeMax) ∧
    byte_stream_copy_le data 24 4 = 2 ∧
    byte_stream_copy_le data 28 4 = 14 ∧
    objectHeaderSize + btreeHeaderSize + btreeFooterSize ≤ n ∧
    node.header = libfsapfs_btree_header_read_data data objectHeaderSize ∧
    node.header.flags = 3 ∧
    (∃ r, accounting_chain node.header
        (n - (objectHeaderSize + btreeHeaderSize) - btreeFooterSize) = DResult.ok r) ∧
    node.footer = libfsapfs_btree_footer_read_data data (n - btreeFooterSize) ∧
    node.footer.key_size = 0 ∧ node.footer.value_size = 0 ∧
    node.footer.number_of_entries ≤ node.header.entries_data_size / tocRecordSize ∧
    (resolve_entries data n
        ((node.header.entries_data_offset + (objectHeaderSize + btreeHeaderSize)) % 65536)
        ((n - btreeFooterSize) % 65536)
        node.header.entries_data_size
        node.footer.number_of_entries
        (objectHeaderSize + btreeHeaderSize + node.header.entries_data_offset)).1
      = DResult.ok node.entries := by
  simp only [read_data_core] at h
  split at h
  · simp at h
  · rename_i hszrange
    push_neg at hszrange
    split at h
    · simp at h
    · rename_i htype
      push_neg at htype
      split at h
      · simp at h
      · rename_i hsub
        push_neg at hsub
        split at h
        · simp at h
        · rename_i hsize
          push_neg at hsize
          split at h
          · simp at h
          · rename_i hflags
            push_neg at hflags
            split at h
            · simp at h
            · rename_i hftrsz
              push_neg at hftrsz
              split at h
              · simp at h
              · rename_i r hchain
                split at h
                · simp at h
                · rename_i hks
                  push_neg at hks
                  split at h
                  · simp at h
                  · rename_i hvs
                    push_neg at hvs
                    split at h
                    · simp at h
                    · rename_i hcount
                      push_neg at hcount
                      split at h
                      · simp at h
                      · rename_i entries rds hres
                        simp only [CoreResult.mk.injEq, DResult.ok.injEq] at h
                        subst h
                        dsimp only
                        refine ⟨⟨by omega, by omega⟩, htype, hsub, by omega, rfl, hflags,
                          ⟨r, hchain⟩, rfl, hks, hvs, hcount, ?_⟩
                        rw [hres]

/-! ### Forward evaluation helpers -/

theorem read_data_some (fs : FileSystemBtree) (dataOpt : Option (Nat → Nat)) (n : Nat) :
    libfsapfs_file_system_btree_read_data (some fs) dataOpt n =
      { result := (read_data_core dataOpt n).result, fsBtree := some fs,
        reads := (read_data_core dataOpt n).reads,
        events := (read_data_core dataOpt n).events } := rfl

/-- Once the argument, size, object type/subtype, header-size and flags checks
and the accounting chain pre-check have passed, the decode continues with the
footer stage. -/
theorem read_data_core_tail (data : Nat → Nat) (n : Nat)
    (h0 : ¬(n < objectHeaderSize ∨ ssizeMax < n))
    (ht : byte_stream_copy_le data 24 4 = 2)
    (hs : byte_stream_copy_le data 28 4 = 14)
    (h1 : ¬(n < objectHeaderSize + btreeHeaderSize))
    (hfl : (libfsapfs_btree_header_read_data data objectHeaderSize).flags = 3)
    (h2 : ¬(n < objectHeaderSize + btreeHeaderSize + btreeFooterSize)) :
    read_data_core (some data) n =
      match accounting_chain (libfsapfs_btree_header_read_data data objectHeaderSize)
          (n - (objectHeaderSize + btreeHeaderSize) - btreeFooterSize) with
      | DResult.err e =>
          { result := DResult.err e, reads := hdrReads, events := hdrEvents }
      | DResult.ok _ =>
          if (libfsapfs_btree_footer_read_data data (n - btreeFooterSize)).key_size ≠ 0 then
            { result := DResult.err ErrorKind.boundsError,
              reads := ftrReads n, events := fullEvents }
          else if (libfsapfs_btree_footer_read_data data
              (n - btreeFooterSize)).value_size ≠ 0 then
            { result := DResult.err ErrorKind.boundsError,
              reads := ftrReads n, events := fullEvents }
          else if (libfsapfs_btree_header_read_data data
                objectHeaderSize).entries_data_size / tocRecordSize <
              (libfsapfs_btree_footer_read_data data
                (n - btreeFooterSize)).number_of_entries then
            { result := DResult.err ErrorKind.boundsError,
              reads := ftrReads n, events := fullEvents }
          else
            match resolve_entries data n
                (((libfsapfs_btree_header_read_data data objectHeaderSize).entries_data_offset
                  + (objectHeaderSize + btreeHeaderSize)) % 65536)
                ((n - btreeFooterSize) % 65536)
                (libfsapfs_btree_header_read_data data objectHeaderSize).entries_data_size
                (libfsapfs_btree_footer_read_data data
                  (n - btreeFooterSize)).number_of_entries
                (objectHeaderSize + btreeHeaderSize +
                  (libfsapfs_btree_header_read_data data objectHeaderSize).entries_data_offset)
                with
            | (DResult.err e, rds) =>
                { result := DResult.err e, reads := ftrReads n ++ rds, events := fullEvents }
            | (DResult.ok entries, rds) =>
                { result := DResult.ok
                    ⟨libfsapfs_btree_header_read_data data objectHeaderSize,
                     libfsapfs_btree_footer_read_data data (n - btreeFooterSize),
                     entries⟩,
                  reads := ftrReads n ++ rds, events := fullEvents } := by
  simp only [read_data_core]
  rw [if_neg h0, if_neg (by simp [ht]), if_neg (by simp [hs]), if_neg h1,
    if_neg (by simp [hfl]), if_neg h2]

/-- Every intermediate allocation the decode makes is matched by a free in the
same call: the header and footer allocation counts equal the corresponding
free counts in the event trace. -/
def alloc_balanced (evts : List AllocEvent) : Prop :=
  evts.count AllocEvent.allocHeader = evts.count AllocEvent.freeHeader ∧
  evts.count AllocEvent.allocFooter = evts.count AllocEvent.freeFooter

theorem read_data_core_balanced (dataOpt : Option (Nat → Nat)) (n : Nat) :
    alloc_balanced (read_data_core dataOpt n).events := by
  unfold read_data_core
  split
  · exact ⟨rfl, rfl⟩
  · split
    · exact ⟨rfl, rfl⟩
    · split
      · exact ⟨rfl, rfl⟩
      · split
        · exact ⟨rfl, rfl⟩
        · split
          · exact ⟨rfl, rfl⟩
          · split
            · exact ⟨rfl, rfl⟩
            · split
              · exact ⟨rfl, rfl⟩
              · split
                · exact ⟨rfl, rfl⟩
                · split
                  · exact ⟨rfl, rfl⟩
                  · split
                    · exact ⟨rfl, rfl⟩
                    · split
                      · exact ⟨rfl, rfl⟩
                      · split
                        · exact ⟨rfl, rfl⟩
                        · exact ⟨rfl, rfl⟩

/-! ### Concrete sample buffers -/

/-- A minimal well-formed node buffer for size 100: object type 2 at offset
24, subtype 14 at offset 28, header flags 3 at offset 32, all region fields
and the footer zero, so the decode succeeds with zero entries. -/
def sampleEmpty : Nat → Nat := fun i =>
  if i = 24 then 2 else if i = 28 then 14 else if i = 32 then 3 else 0

/-- A buffer for size 100 whose header declares entries data offset 60000
(bytes 96, 234 little-endian at offsets 40-41), far beyond the remaining
space of 4 bytes, so the accounting chain rejects it. -/
def sampleBadEntriesOffset : Nat → Nat := fun i =>
  if i = 24 then 2 else if i = 28 then 14 else if i = 32 then 3
  else if i = 40 then 96 else if i = 41 then 234 else 0

/-- A buffer for size 70000 with entries size 8, one TOC record at offset 56
whose key data offset is 65532 (bytes 252, 255), making the mathematical
absolute key offset 56 + 8 + 65532 = 65596 wrap to 60 in 16-bit
arithmetic; the decode nevertheless succeeds. -/
def sampleKeyWrap : Nat → Nat := fun i =>
  if i = 24 then 2 else if i = 28 then 14 else if i = 32 then 3
  else if i = 42 then 8
  else if i = 56 then 252 else if i = 57 then 255
  else if i = 69964 then 1 else 0

/-- A buffer for size 70000 with entries size 8 and one TOC record whose
value data offset is 100; the 16-bit footer offset truncates 69960 to 4424,
so the resolved value offset is 4324 instead of 69860; the decode
nevertheless succeeds. -/
def sampleValueTrunc : Nat → Nat := fun i =>
  if i = 24 then 2 else if i = 28 then 14 else if i = 32 then 3
  else if i = 42 then 8
  else if i = 60 then 100
  else if i = 69964 then 1 else 0

/-- A buffer for size 100 that passes every check up to the footer but whose
footer key size field (offset 60) is 1, which the code rejects with the
out-of-bounds error, not the unsupported-value error. -/
def sampleNonzeroKeySize : Nat → Nat := fun i =>
  if i = 24 then 2 else if i = 28 then 14 else if i = 32 then 3
  else if i = 60 then 1 else 0

/-- The buffer `sampleEmpty` with every byte at or above index 100 replaced
by 7: it agrees with `sampleEmpty` on all indices below 100. -/
def sampleEmptyTail7 : Nat → Nat := fun i =>
  if i < 100 then sampleEmpty i else 7

/-- A buffer for size 100 that passes every check up to the footer, has an
empty entries region, but declares one entry in the footer (offset 64), so
the entry-count consistency check rejects it. -/
def sampleTooManyEntries : Nat → Nat := fun i =>
  if i = 24 then 2 else if i = 28 then 14 else if i = 32 then 3
  else if i = 64 then 1 else 0

/-! ### Claims -/

/-- C10: `libfsapfs_file_system_btree_read_data` leaves the file system
B-tree structure it is given completely unchanged on every path, success or
failure; in particular a call on the zero-cleared aggregate leaves it with no
decoded header, no footer and no resolved entries. -/
theorem claim_C10 (fsOpt : Option FileSystemBtree) (dataOpt : Option (Nat → Nat)) (n : Nat) :
    (libfsapfs_file_system_btree_read_data fsOpt dataOpt n).fsBtree = fsOpt ∧
    (libfsapfs_file_system_btree_read_data (some libfsapfs_file_system_btree_zeroed)
        dataOpt n).fsBtree =
      some { header := none, footer := none, entries := [] } := by
  refine ⟨?_, rfl⟩
  cases fsOpt <;> rfl

/-- C8: on every failing path the call returns an error with no partial
decoded node stored in the aggregate (the aggregate is returned unchanged),
and the intermediate header/footer allocations made during the call are all
released: the allocation event trace is balanced. -/
theorem claim_C8 (fsOpt : Option FileSystemBtree) (dataOpt : Option (Nat → Nat)) (n : Nat)
    (e : ErrorKind)
    (h : (libfsapfs_file_system_btree_read_data fsOpt dataOpt n).result = DResult.err e) :
    alloc_balanced (libfsapfs_file_system_btree_read_data fsOpt dataOpt n).events ∧
    (libfsapfs_file_system_btree_read_data fsOpt dataOpt n).fsBtree = fsOpt := by
  cases fsOpt with
  | none => exact ⟨⟨rfl, rfl⟩, rfl⟩
  | some fs => exact ⟨read_data_core_balanced dataOpt n, rfl⟩

theorem claim_C8_witness :
    (libfsapfs_file_system_btree_read_data (some libfsapfs_file_system_btree_zeroed)
        (some sampleNonzeroKeySize) 100).result = DResult.err ErrorKind.boundsError ∧
    (alloc_balanced (libfsapfs_file_system_btree_read_data
        (some libfsapfs_file_system_btree_zeroed) (some sampleNonzeroKeySize) 100).events ∧
      (libfsapfs_file_system_btree_read_data (some libfsapfs_file_system_btree_zeroed)
        (some sampleNonzeroKeySize) 100).fsBtree = some libfsapfs_file_system_btree_zeroed) :=
  ⟨by decide,
   claim_C8 (some libfsapfs_file_system_btree_zeroed) (some sampleNonzeroKeySize) 100
     ErrorKind.boundsError (by decide)⟩

/-- C5: every buffer the decode accepts satisfies the layout accounting
inequality: object header size + B-tree header size + entries data offset +
entries data size + unused data offset + unused data size + footer size is at
most the data size. -/
theorem claim_C5 (fs : FileSystemBtree) (data : Nat → Nat) (n : Nat) (node : DecodedNode)
    (h : (libfsapfs_file_system_btree_read_data (some fs) (some data) n).result
      = DResult.ok node) :
    objectHeaderSize + btreeHeaderSize + node.header.entries_data_offset +
      node.header.entries_data_size + node.header.unused_data_offset +
      node.header.unused_data_size + btreeFooterSize ≤ n := by
  have hc : (read_data_core (some data) n).result = DResult.ok node := h
  obtain ⟨hsz, ht, hs, hfsz, hhdr, hfl, ⟨r, hchain⟩, hftr, hks, hvs, hcount, hres⟩ :=
    read_data_core_ok_inv data n node hc
  obtain ⟨b1, b2, b3, b4, b5⟩ := accounting_chain_ok_bounds _ _ _ hchain
  omega

theorem claim_C5_witness :
    (libfsapfs_file_system_btree_read_data (some libfsapfs_file_system_btree_zeroed)
        (some sampleEmpty) 100).result =
      DResult.ok ⟨⟨3, 0, 0, 0, 0, 0, 0⟩, ⟨0, 0, 0⟩, []⟩ ∧
    objectHeaderSize + btreeHeaderSize + 0 + 0 + 0 + 0 + btreeFooterSize ≤ 100 :=
  ⟨by decide,
   claim_C5 libfsapfs_file_system_btree_zeroed sampleEmpty 100
     ⟨⟨3, 0, 0, 0, 0, 0, 0⟩, ⟨0, 0, 0⟩, []⟩ (by decide)⟩

/-- C6: once the decode reaches the footer entry-count consistency check,
any footer declaring more entries than entries data size divided by the
8-byte TOC record size is rejected with a bounds error; and every accepted
buffer satisfies number of entries times 8 at most the entries data size and
resolves exactly number of entries TOC records. -/
theorem claim_C6 (fs : FileSystemBtree) (data : Nat → Nat) (n : Nat)
    (h0 : ¬(n < objectHeaderSize ∨ ssizeMax < n))
    (ht : byte_stream_copy_le data 24 4 = 2)
    (hs : byte_stream_copy_le data 28 4 = 14)
    (h1 : ¬(n < objectHeaderSize + btreeHeaderSize))
    (hfl : (libfsapfs_btree_header_read_data data objectHeaderSize).flags = 3)
    (h2 : ¬(n < objectHeaderSize + btreeHeaderSize + btreeFooterSize))
    (r : Nat)
    (hch : accounting_chain (libfsapfs_btree_header_read_data data objectHeaderSize)
      (n - (objectHeaderSize + btreeHeaderSize) - btreeFooterSize) = DResult.ok r)
    (hks : (libfsapfs_btree_footer_read_data data (n - btreeFooterSize)).key_size = 0)
    (hvs : (libfsapfs_btree_footer_read_data data (n - btreeFooterSize)).value_size = 0) :
    ((libfsapfs_btree_header_read_data data objectHeaderSize).entries_data_size /
        tocRecordSize <
        (libfsapfs_btree_footer_read_data data (n - btreeFooterSize)).number_of_entries →
      (libfsapfs_file_system_btree_read_data (some fs) (some data) n).result =
        DResult.err ErrorKind.boundsError) ∧
    (∀ node, (libfsapfs_file_system_btree_read_data (some fs) (some data) n).result =
        DResult.ok node →
      node.footer.number_of_entries * tocRecordSize ≤ node.header.entries_data_size ∧
      node.entries.length = node.footer.number_of_entries) := by
  constructor
  · intro hcnt
    show (read_data_core (some data) n).result = DResult.err ErrorKind.boundsError
    rw [read_data_core_tail data n h0 ht hs h1 hfl h2, hch]
    rw [if_neg (by simp [hks]), if_neg (by simp [hvs]), if_pos hcnt]
  · intro node hok
    have hc : (read_data_core (some data) n).result = DResult.ok node := hok
    obtain ⟨hsz, ht2, hs2, hfsz, hhdr, hfl2, ⟨r2, hchain⟩, hftr, hks2, hvs2, hcount, hres⟩ :=
      read_data_core_ok_inv data n node hc
    obtain ⟨hlen, hspec⟩ := resolve_entries_ok_spec _ _ _ _ _ _ _ _ hres
    refine ⟨?_, hlen⟩
    have htoc : tocRecordSize = 8 := rfl
    have hdiv : node.footer.number_of_entries ≤ node.header.entries_data_size / 8 := by
      rw [htoc] at hcount; exact hcount
    have := Nat.div_mul_le_self node.header.entries_data_size 8
    rw [htoc]
    calc node.footer.number_of_entries * 8 ≤ node.header.entries_data_size / 8 * 8 :=
          Nat.mul_le_mul_right _ hdiv
      _ ≤ node.header.entries_data_size := Nat.div_mul_le_self _ _

theorem claim_C6_witness :
    (libfsapfs_file_system_btree_read_data (some libfsapfs_file_system_btree_zeroed)
        (some sampleTooManyEntries) 100).result = DResult.err ErrorKind.boundsError :=
  (claim_C6 libfsapfs_file_system_btree_zeroed sampleTooManyEntries 100 (by decide)
    (by decide) (by decide) (by decide) (by decide) (by decide) 4 (by decide) (by decide)
    (by decide)).1 (by decide)

theorem accounting_chain_err_kind (hdr : BtreeHeader) (rem : Nat) (e : ErrorKind)
    (h : accounting_chain hdr rem = DResult.err e) : e = ErrorKind.boundsError := by
  unfold accounting_chain at h
  dsimp only at h
  split at h
  · cases h; rfl
  · split at h
    · cases h; rfl
    · split at h
      · cases h; rfl
      · split at h
        · cases h; rfl
        · cases h

theorem resolve_entries_err_kind (data : Nat → Nat) (dataSize anchor fo es : Nat) :
    ∀ count dataOffset e,
      (resolve_entries data dataSize anchor fo es count dataOffset).1 = DResult.err e →
      e = ErrorKind.boundsError := by
  intro count
  induction count with
  | zero => intro dataOffset e h; simp [resolve_entries] at h
  | succ k ih =>
      intro dataOffset e h
      simp only [resolve_entries] at h
      split at h
      · cases h; rfl
      · split at h
        · cases h; rfl
        · split at h
          · cases h
          · rename_i e2 rds hrest
            cases h
            exact ih (dataOffset + tocRecordSize) _ (by rw [hrest])

/-- C1: with the object header, size, type/subtype, header-size and flags
checks passed, the bounds-accounting chain starts from remaining = data size
minus header end offset minus footer size and subtracts, in order, the
entries data offset, entries data size, unused data offset and unused data
size, each guarded against the current remaining; whenever a subtracted
value exceeds its current remaining the whole decode fails with a bounds
error before the footer is decoded (the event trace shows no footer
allocation) and before any TOC record is read (the read trace holds only
the object header and B-tree header slices). -/
theorem claim_C1 (fs : FileSystemBtree) (data : Nat → Nat) (n : Nat)
    (hdr : BtreeHeader) (rem0 : Nat)
    (hhdr : hdr = libfsapfs_btree_header_read_data data objectHeaderSize)
    (hrem : rem0 = n - (objectHeaderSize + btreeHeaderSize) - btreeFooterSize)
    (h0 : ¬(n < objectHeaderSize ∨ ssizeMax < n))
    (ht : byte_stream_copy_le data 24 4 = 2)
    (hs : byte_stream_copy_le data 28 4 = 14)
    (h1 : ¬(n < objectHeaderSize + btreeHeaderSize))
    (hfl : hdr.flags = 3)
    (h2 : ¬(n < objectHeaderSize + btreeHeaderSize + btreeFooterSize)) :
    ((hdr.entries_data_offset > rem0 ∨
      hdr.entries_data_size > rem0 - hdr.entries_data_offset ∨
      hdr.unused_data_offset > rem0 - hdr.entries_data_offset - hdr.entries_data_size ∨
      hdr.unused_data_size >
        rem0 - hdr.entries_data_offset - hdr.entries_data_size - hdr.unused_data_offset) →
      (libfsapfs_file_system_btree_read_data (some fs) (some data) n).result =
        DResult.err ErrorKind.boundsError ∧
      (libfsapfs_file_system_btree_read_data (some fs) (some data) n).events = hdrEvents ∧
      (libfsapfs_file_system_btree_read_data (some fs) (some data) n).reads = hdrReads) ∧
    (accounting_chain hdr rem0 =
        DResult.ok (rem0 - hdr.entries_data_offset - hdr.entries_data_size -
          hdr.unused_data_offset - hdr.unused_data_size) ↔
      (hdr.entries_data_offset < rem0 ∧
       hdr.entries_data_size ≤ rem0 - hdr.entries_data_offset ∧
       hdr.unused_data_offset < rem0 - hdr.entries_data_offset - hdr.entries_data_size ∧
       hdr.unused_data_size ≤
         rem0 - hdr.entries_data_offset - hdr.entries_data_size - hdr.unused_data_offset)) := by
  subst hhdr
  subst hrem
  constructor
  · intro hviol
    have hcherr : accounting_chain (libfsapfs_btree_header_read_data data objectHeaderSize)
        (n - (objectHeaderSize + btreeHeaderSize) - btreeFooterSize) =
        DResult.err ErrorKind.boundsError :=
      accounting_chain_err_of _ _ (by omega)
    rw [read_data_some]
    rw [read_data_core_tail data n h0 ht hs h1 hfl h2, hcherr]
    exact ⟨rfl, rfl, rfl⟩
  · constructor
    · intro hok
      obtain ⟨b1, b2, b3, b4, _⟩ := accounting_chain_ok_bounds _ _ _ hok
      exact ⟨b1, b2, b3, b4⟩
    · intro hcond
      exact accounting_chain_ok_of _ _ hcond.1 hcond.2.1 hcond.2.2.1 hcond.2.2.2

theorem claim_C1_witness :
    (libfsapfs_file_system_btree_read_data (some libfsapfs_file_system_btree_zeroed)
        (some sampleBadEntriesOffset) 100).result = DResult.err ErrorKind.boundsError ∧
    (libfsapfs_file_system_btree_read_data (some libfsapfs_file_system_btree_zeroed)
        (some sampleBadEntriesOffset) 100).events = hdrEvents ∧
    (libfsapfs_file_system_btree_read_data (some libfsapfs_file_system_btree_zeroed)
        (some sampleBadEntriesOffset) 100).reads = hdrReads :=
  (claim_C1 libfsapfs_file_system_btree_zeroed sampleBadEntriesOffset 100
    (libfsapfs_btree_header_read_data sampleBadEntriesOffset objectHeaderSize)
    (100 - (objectHeaderSize + btreeHeaderSize) - btreeFooterSize) rfl rfl
    (by decide) (by decide) (by decide) (by decide) (by decide) (by decide)).1
    (by decide)

/-- C2, corrected: for every TOC record of an accepted buffer the resolver
computes the absolute key offset as (object header size + B-tree header size
+ entries data offset + entries data size + record key data offset) reduced
modulo 65536 — the computation is carried out in 16-bit arithmetic, not as
the exact integer sum — validates it against the data size, and the computed
offset equals the exact mathematical sum whenever that sum is below 65536. -/
theorem claim_C2 (fs : FileSystemBtree) (data : Nat → Nat) (n : Nat) (node : DecodedNode)
    (h : (libfsapfs_file_system_btree_read_data (some fs) (some data) n).result
      = DResult.ok node) :
    ∀ i e, node.entries.get? i = some e →
      e.keyOffset =
        (objectHeaderSize + btreeHeaderSize + node.header.entries_data_offset +
          node.header.entries_data_size +
          byte_stream_copy_le data
            (objectHeaderSize + btreeHeaderSize + node.header.entries_data_offset +
              tocRecordSize * i) 2) % 65536 ∧
      e.keyOffset ≤ n ∧
      e.keySize ≤ n - e.keyOffset ∧
      (objectHeaderSize + btreeHeaderSize + node.header.entries_data_offset +
          node.header.entries_data_size +
          byte_stream_copy_le data
            (objectHeaderSize + btreeHeaderSize + node.header.entries_data_offset +
              tocRecordSize * i) 2 < 65536 →
        e.keyOffset =
          objectHeaderSize + btreeHeaderSize + node.header.entries_data_offset +
            node.header.entries_data_size +
            byte_stream_copy_le data
              (objectHeaderSize + btreeHeaderSize + node.header.entries_data_offset +
                tocRecordSize * i) 2) := by
  intro i e hget
  have hc : (read_data_core (some data) n).result = DResult.ok node := h
  obtain ⟨hsz, ht, hs, hfsz, hhdr, hfl, ⟨r, hchain⟩, hftr, hks, hvs, hcount, hres⟩ :=
    read_data_core_ok_inv data n node hc
  obtain ⟨hlen, hspec⟩ := resolve_entries_ok_spec _ _ _ _ _ _ _ _ hres
  have hi : i < node.footer.number_of_entries := by
    rw [← hlen]
    exact List.get?_eq_some.mp hget |>.1
  obtain ⟨e2, hget2, hkoff, hksz, hvoff, hvsz, hbk1, hbk2, hbv1, hbv2⟩ := hspec i hi
  rw [hget] at hget2
  cases hget2
  have hAB : objectHeaderSize + btreeHeaderSize = 56 := rfl
  refine ⟨?_, hbk1, hbk2, ?_⟩
  · rw [hkoff]
    omega
  · intro hlt
    rw [hkoff]
    omega

theorem claim_C2_witness :
    (libfsapfs_file_system_btree_read_data (some libfsapfs_file_system_btree_zeroed)
        (some sampleKeyWrap) 70000).result =
      DResult.ok ⟨⟨3, 0, 0, 0, 8, 0, 0⟩, ⟨0, 0, 1⟩, [⟨60, 0, 4424, 0⟩]⟩ ∧
    (60 : Nat) ≤ 70000 :=
  ⟨by decide,
   ((claim_C2 libfsapfs_file_system_btree_zeroed sampleKeyWrap 70000
      ⟨⟨3, 0, 0, 0, 8, 0, 0⟩, ⟨0, 0, 1⟩, [⟨60, 0, 4424, 0⟩]⟩ (by decide))
      0 ⟨60, 0, 4424, 0⟩ (by decide)).2.1⟩

theorem claim_C2_counterexample :
    (libfsapfs_file_system_btree_read_data (some libfsapfs_file_system_btree_zeroed)
        (some sampleKeyWrap) 70000).result =
      DResult.ok ⟨⟨3, 0, 0, 0, 8, 0, 0⟩, ⟨0, 0, 1⟩, [⟨60, 0, 4424, 0⟩]⟩ ∧
    byte_stream_copy_le sampleKeyWrap
      (objectHeaderSize + btreeHeaderSize + 0 + tocRecordSize * 0) 2 = 65532 ∧
    (60 : Nat) ≠ objectHeaderSize + btreeHeaderSize + 0 + 8 + 65532 :=
  ⟨by decide, by decide, by decide⟩

/-- C3, corrected: for every TOC record of an accepted buffer the resolver
computes the footer offset as (data size - footer size) truncated to 16 bits
and the absolute value offset as the 16-bit subtraction of the record value
data offset from that truncated footer offset — not as exact integer
arithmetic — and validates it against the data size.  Whenever the value
data offset does not exceed data size - footer size, the computed offset
equals (data size - footer size - value data offset) mod 65536, and it
equals the exact value (data size - footer size - value data offset)
precisely when that exact value is below 65536 (the two 16-bit wraps can
cancel, so this can happen even when data size - footer size is 65536 or
more). -/
theorem claim_C3 (fs : FileSystemBtree) (data : Nat → Nat) (n : Nat) (node : DecodedNode)
    (h : (libfsapfs_file_system_btree_read_data (some fs) (some data) n).result
      = DResult.ok node) :
    ∀ i e, node.entries.get? i = some e →
      e.valueOffset =
        ((n - btreeFooterSize) % 65536 + 65536 -
          byte_stream_copy_le data
            (objectHeaderSize + btreeHeaderSize + node.header.entries_data_offset +
              tocRecordSize * i + 4) 2) % 65536 ∧
      e.valueOffset ≤ n ∧
      e.valueSize ≤ n - e.valueOffset ∧
      (byte_stream_copy_le data
          (objectHeaderSize + btreeHeaderSize + node.header.entries_data_offset +
            tocRecordSize * i + 4) 2 ≤ n - btreeFooterSize →
        e.valueOffset = (n - btreeFooterSize -
          byte_stream_copy_le data
            (objectHeaderSize + btreeHeaderSize + node.header.entries_data_offset +
              tocRecordSize * i + 4) 2) % 65536 ∧
        (e.valueOffset = n - btreeFooterSize -
            byte_stream_copy_le data
              (objectHeaderSize + btreeHeaderSize + node.header.entries_data_offset +
                tocRecordSize * i + 4) 2 ↔
          n - btreeFooterSize -
            byte_stream_copy_le data
              (objectHeaderSize + btreeHeaderSize + node.header.entries_data_offset +
                tocRecordSize * i + 4) 2 < 65536)) := by
  intro i e hget
  have hc : (read_data_core (some data) n).result = DResult.ok node := h
  obtain ⟨hsz, ht, hs, hfsz, hhdr, hfl, ⟨r, hchain⟩, hftr, hks, hvs, hcount, hres⟩ :=
    read_data_core_ok_inv data n node hc
  obtain ⟨hlen, hspec⟩ := resolve_entries_ok_spec _ _ _ _ _ _ _ _ hres
  have hi : i < node.footer.number_of_entries := by
    rw [← hlen]
    exact List.get?_eq_some.mp hget |>.1
  obtain ⟨e2, hget2, hkoff, hksz, hvoff, hvsz, hbk1, hbk2, hbv1, hbv2⟩ := hspec i hi
  rw [hget] at hget2
  cases hget2
  have hvlt : byte_stream_copy_le data
      (objectHeaderSize + btreeHeaderSize + node.header.entries_data_offset +
        tocRecordSize * i + 4) 2 < 65536 := by
    have := byte_stream_copy_le_lt data
      (objectHeaderSize + btreeHeaderSize + node.header.entries_data_offset +
        tocRecordSize * i + 4) 2
    norm_num at this
    exact this
  refine ⟨hvoff, hbv1, hbv2, ?_⟩
  intro hvle
  refine ⟨?_, ?_⟩
  · rw [hvoff]
    omega
  · rw [hvoff]
    constructor
    · intro heq
      omega
    · intro hlt
      omega

theorem claim_C3_witness :
    (libfsapfs_file_system_btree_read_data (some libfsapfs_file_system_btree_zeroed)
        (some sampleValueTrunc) 70000).result =
      DResult.ok ⟨⟨3, 0, 0, 0, 8, 0, 0⟩, ⟨0, 0, 1⟩, [⟨64, 0, 4324, 0⟩]⟩ ∧
    (4324 : Nat) ≤ 70000 :=
  ⟨by decide,
   ((claim_C3 libfsapfs_file_system_btree_zeroed sampleValueTrunc 70000
      ⟨⟨3, 0, 0, 0, 8, 0, 0⟩, ⟨0, 0, 1⟩, [⟨64, 0, 4324, 0⟩]⟩ (by decide))
      0 ⟨64, 0, 4324, 0⟩ (by decide)).2.1⟩

theorem claim_C3_counterexample :
    (libfsapfs_file_system_btree_read_data (some libfsapfs_file_system_btree_zeroed)
        (some sampleValueTrunc) 70000).result =
      DResult.ok ⟨⟨3, 0, 0, 0, 8, 0, 0⟩, ⟨0, 0, 1⟩, [⟨64, 0, 4324, 0⟩]⟩ ∧
    byte_stream_copy_le sampleValueTrunc
      (objectHeaderSize + btreeHeaderSize + 0 + tocRecordSize * 0 + 4) 2 = 100 ∧
    (4324 : Nat) ≠ 70000 - btreeFooterSize - 100 :=
  ⟨by decide, by decide, by decide⟩

/-- C7, corrected: the decode fails with the unsupported-format error kind
exactly when the object type is not 0x00000002, or the object subtype is not
0x0000000e, or (with the header in range) the B-tree header flags are not
0x0003 — but a nonzero footer key size or value size is rejected with the
bounds error kind, not the unsupported-format kind. -/
theorem claim_C7 (fs : FileSystemBtree) (data : Nat → Nat) (n : Nat) :
    ((libfsapfs_file_system_btree_read_data (some fs) (some data) n).result =
        DResult.err ErrorKind.unsupportedFormat ↔
      (¬(n < objectHeaderSize ∨ ssizeMax < n) ∧
        (byte_stream_copy_le data 24 4 ≠ 2 ∨
         byte_stream_copy_le data 28 4 ≠ 14 ∨
         (¬(n < objectHeaderSize + btreeHeaderSize) ∧
          (libfsapfs_btree_header_read_data data objectHeaderSize).flags ≠ 3)))) ∧
    (∀ r, ¬(n < objectHeaderSize ∨ ssizeMax < n) →
      byte_stream_copy_le data 24 4 = 2 →
      byte_stream_copy_le data 28 4 = 14 →
      ¬(n < objectHeaderSize + btreeHeaderSize) →
      (libfsapfs_btree_header_read_data data objectHeaderSize).flags = 3 →
      ¬(n < objectHeaderSize + btreeHeaderSize + btreeFooterSize) →
      accounting_chain (libfsapfs_btree_header_read_data data objectHeaderSize)
        (n - (objectHeaderSize + btreeHeaderSize) - btreeFooterSize) = DResult.ok r →
      ((libfsapfs_btree_footer_read_data data (n - btreeFooterSize)).key_size ≠ 0 ∨
       (libfsapfs_btree_footer_read_data data (n - btreeFooterSize)).value_size ≠ 0) →
      (libfsapfs_file_system_btree_read_data (some fs) (some data) n).result =
        DResult.err ErrorKind.boundsError) := by
  constructor
  · show (read_data_core (some data) n).result = DResult.err ErrorKind.unsupportedFormat ↔ _
    simp only [read_data_core]
    by_cases c0 : (n < objectHeaderSize ∨ ssizeMax < n)
    · rw [if_pos c0]
      simp [c0]
    · rw [if_neg c0]
      by_cases c1 : byte_stream_copy_le data 24 4 ≠ 2
      · rw [if_pos c1]
        simp [c0, c1]
      · rw [if_neg c1]
        push_neg at c1
        by_cases c2 : byte_stream_copy_le data 28 4 ≠ 14
        · rw [if_pos c2]
          simp [c0, c1, c2]
        · rw [if_neg c2]
          push_neg at c2
          by_cases c3 : n < objectHeaderSize + btreeHeaderSize
          · rw [if_pos c3]
            simp [c0, c1, c2, c3]
          · rw [if_neg c3]
            by_cases c4 : (libfsapfs_btree_header_read_data data objectHeaderSize).flags ≠ 3
            · rw [if_pos c4]
              simp [c0, c1, c2, c3, c4]
            · rw [if_neg c4]
              push_neg at c4
              by_cases c5 : n < objectHeaderSize + btreeHeaderSize + btreeFooterSize
              · rw [if_pos c5]
                simp [c0, c1, c2, c3, c4, c5]
              · rw [if_neg c5]
                cases hacc : accounting_chain
                    (libfsapfs_btree_header_read_data data objectHeaderSize)
                    (n - (objectHeaderSize + btreeHeaderSize) - btreeFooterSize) with
                | err e =>
                    have he := accounting_chain_err_kind _ _ _ hacc
                    subst he
                    simp [c0, c1, c2, c3, c4]
                | ok r =>
                    by_cases c6 : (libfsapfs_btree_footer_read_data data
                        (n - btreeFooterSize)).key_size ≠ 0
                    · rw [if_pos c6]
                      simp [c0, c1, c2, c3, c4]
                    · rw [if_neg c6]
                      by_cases c7 : (libfsapfs_btree_footer_read_data data
                          (n - btreeFooterSize)).value_size ≠ 0
                      · rw [if_pos c7]
                        simp [c0, c1, c2, c3, c4]
                      · rw [if_neg c7]
                        by_cases c8 : (libfsapfs_btree_header_read_data data
                              objectHeaderSize).entries_data_size / tocRecordSize <
                            (libfsapfs_btree_footer_read_data data
                              (n - btreeFooterSize)).number_of_entries
                        · rw [if_pos c8]
                          simp [c0, c1, c2, c3, c4]
                        · rw [if_neg c8]
                          cases hres : resolve_entries data n
                              (((libfsapfs_btree_header_read_data data
                                objectHeaderSize).entries_data_offset
                                  + (objectHeaderSize + btreeHeaderSize)) % 65536)
                              ((n - btreeFooterSize) % 65536)
                              (libfsapfs_btree_header_read_data data
                                objectHeaderSize).entries_data_size
                              (libfsapfs_btree_footer_read_data data
                                (n - btreeFooterSize)).number_of_entries
                              (objectHeaderSize + btreeHeaderSize +
                                (libfsapfs_btree_header_read_data data
                                  objectHeaderSize).entries_data_offset) with
                          | mk res rds =>
                              cases res with
                              | err e =>
                                  have he := resolve_entries_err_kind data n _ _ _ _ _ e
                                    (by rw [hres])
                                  subst he
                                  simp [c0, c1, c2, c3, c4]
                              | ok entries =>
                                  simp [c0, c1, c2, c3, c4]
  · intro r h0 ht hs h1 hfl h2 hch hnz
    show (read_data_core (some data) n).result = DResult.err ErrorKind.boundsError
    rw [read_data_core_tail data n h0 ht hs h1 hfl h2, hch]
    by_cases c6 : (libfsapfs_btree_footer_read_data data (n - btreeFooterSize)).key_size ≠ 0
    · rw [if_pos c6]
    · rw [if_neg c6]
      push_neg at c6
      rcases hnz with hnz | hnz
      · exact absurd c6 hnz
      · rw [if_pos hnz]

theorem claim_C7_witness :
    (libfsapfs_file_system_btree_read_data (some libfsapfs_file_system_btree_zeroed)
        (some sampleNonzeroKeySize) 100).result = DResult.err ErrorKind.boundsError :=
  (claim_C7 libfsapfs_file_system_btree_zeroed sampleNonzeroKeySize 100).2 4
    (by decide) (by decide) (by decide) (by decide) (by decide) (by decide) (by decide)
    (Or.inl (by decide))

theorem claim_C7_counterexample :
    (libfsapfs_file_system_btree_read_data (some libfsapfs_file_system_btree_zeroed)
        (some sampleNonzeroKeySize) 100).result = DResult.err ErrorKind.boundsError ∧
    (libfsapfs_btree_footer_read_data sampleNonzeroKeySize
      (100 - btreeFooterSize)).key_size = 1 ∧
    DResult.err (α := DecodedNode) ErrorKind.boundsError ≠
      DResult.err ErrorKind.unsupportedFormat :=
  ⟨by decide, by decide, by decide⟩

theorem read_data_core_reads_bound (data : Nat → Nat) (n : Nat) :
    ∀ o l, (o, l) ∈ (read_data_core (some data) n).reads → o + l ≤ n := by
  have hA : objectHeaderSize = 32 := rfl
  have hB : btreeHeaderSize = 24 := rfl
  have hC : btreeFooterSize = 40 := rfl
  have hT : tocRecordSize = 8 := rfl
  intro o l hm
  simp only [read_data_core] at hm
  split at hm
  · simp at hm
  · rename_i hc0
    split at hm
    · simp only [List.mem_singleton, Prod.mk.injEq] at hm
      omega
    · split at hm
      · simp only [List.mem_cons, List.not_mem_nil, or_false, Prod.mk.injEq] at hm
        omega
      · split at hm
        · simp only [List.mem_cons, List.not_mem_nil, or_false, Prod.mk.injEq] at hm
          omega
        · rename_i hc3
          split at hm
          · simp only [hdrReads, List.mem_cons, List.not_mem_nil, or_false,
              Prod.mk.injEq] at hm
            omega
          · split at hm
            · simp only [hdrReads, List.mem_cons, List.not_mem_nil, or_false,
                Prod.mk.injEq] at hm
              omega
            · rename_i hc5
              split at hm
              · simp only [hdrReads, List.mem_cons, List.not_mem_nil, or_false,
                  Prod.mk.injEq] at hm
                omega
              · rename_i r hacc
                obtain ⟨b1, b2, b3, b4, b5⟩ := accounting_chain_ok_bounds _ _ _ hacc
                split at hm
                · simp only [ftrReads, hdrReads, List.mem_append, List.mem_cons,
                    List.mem_singleton, List.not_mem_nil, or_false, Prod.mk.injEq] at hm
                  omega
                · split at hm
                  · simp only [ftrReads, hdrReads, List.mem_append, List.mem_cons,
                      List.mem_singleton, List.not_mem_nil, or_false, Prod.mk.injEq] at hm
                    omega
                  · split at hm
                    · simp only [ftrReads, hdrReads, List.mem_append, List.mem_cons,
                        List.mem_singleton, List.not_mem_nil, or_false, Prod.mk.injEq] at hm
                      omega
                    · rename_i hc8
                      have hbound : objectHeaderSize + btreeHeaderSize +
                          (libfsapfs_btree_header_read_data data
                            objectHeaderSize).entries_data_offset +
                          tocRecordSize *
                          (libfsapfs_btree_footer_read_data data
                            (n - btreeFooterSize)).number_of_entries ≤ n := by
                        have h8 : tocRecordSize *
                            (libfsapfs_btree_footer_read_data data
                              (n - btreeFooterSize)).number_of_entries =
                            8 * (libfsapfs_btree_footer_read_data data
                              (n - btreeFooterSize)).number_of_entries := by rw [hT]
                        rw [hT] at hc8
                        push_neg at hc8
                        omega
                      split at hm
                      · rename_i e rds hres
                        rw [List.mem_append] at hm
                        rcases hm with hm | hm
                        · simp only [ftrReads, hdrReads, List.mem_append, List.mem_cons,
                            List.mem_singleton, List.not_mem_nil, or_false,
                            Prod.mk.injEq] at hm
                          omega
                        · have hb := resolve_entries_reads_bound data n
                            (((libfsapfs_btree_header_read_data data
                              objectHeaderSize).entries_data_offset +
                              (objectHeaderSize + btreeHeaderSize)) % 65536)
                            ((n - btreeFooterSize) % 65536)
                            (libfsapfs_btree_header_read_data data
                              objectHeaderSize).entries_data_size
                            (libfsapfs_btree_footer_read_data data
                              (n - btreeFooterSize)).number_of_entries
                            (objectHeaderSize + btreeHeaderSize +
                              (libfsapfs_btree_header_read_data data
                                objectHeaderSize).entries_data_offset)
                            hbound o l
                          rw [hres] at hb
                          exact hb hm
                      · rename_i entries rds hres
                        rw [List.mem_append] at hm
                        rcases hm with hm | hm
                        · simp only [ftrReads, hdrReads, List.mem_append, List.mem_cons,
                            List.mem_singleton, List.not_mem_nil, or_false,
                            Prod.mk.injEq] at hm
                          omega
                        · have hb := resolve_entries_reads_bound data n
                            (((libfsapfs_btree_header_read_data data
                              objectHeaderSize).entries_data_offset +
                              (objectHeaderSize + btreeHeaderSize)) % 65536)
                            ((n - btreeFooterSize) % 65536)
                            (libfsapfs_btree_header_read_data data
                              objectHeaderSize).entries_data_size
                            (libfsapfs_btree_footer_read_data data
                              (n - btreeFooterSize)).number_of_entries
                            (objectHeaderSize + btreeHeaderSize +
                              (libfsapfs_btree_header_read_data data
                                objectHeaderSize).entries_data_offset)
                            hbound o l
                          rw [hres] at hb
                          exact hb hm

/-- C4: the decoder never dereferences a byte outside the provided buffer:
for every input, every (offset, length) slice it reads — object type and
subtype fields, B-tree header slice, footer slice, TOC records and the
resolved key/value ranges — satisfies offset + length at most the data
size, however adversarial the embedded offset and size fields are. -/
theorem claim_C4 (fsOpt : Option FileSystemBtree) (dataOpt : Option (Nat → Nat))
    (n o l : Nat)
    (hm : (o, l) ∈ (libfsapfs_file_system_btree_read_data fsOpt dataOpt n).reads) :
    o + l ≤ n := by
  cases fsOpt with
  | none => simp [libfsapfs_file_system_btree_read_data] at hm
  | some fs =>
      cases dataOpt with
      | none =>
          have hmc : (o, l) ∈ (read_data_core none n).reads := hm
          simp [read_data_core] at hmc
      | some data => exact read_data_core_reads_bound data n o l hm

theorem claim_C4_witness :
    ((24, 4) ∈ (libfsapfs_file_system_btree_read_data
        (some libfsapfs_file_system_btree_zeroed) (some sampleEmpty) 100).reads) ∧
    24 + 4 ≤ 100 :=
  ⟨by decide,
   claim_C4 (some libfsapfs_file_system_btree_zeroed) (some sampleEmpty) 100 24 4
     (by decide)⟩

theorem read_data_core_congr (d1 d2 : Nat → Nat) (n : Nat)
    (hago : ∀ i, i < n → d1 i = d2 i) :
    read_data_core (some d1) n = read_data_core (some d2) n := by
  have hA : objectHeaderSize = 32 := rfl
  have hB : btreeHeaderSize = 24 := rfl
  have hC : btreeFooterSize = 40 := rfl
  have hT : tocRecordSize = 8 := rfl
  simp only [read_data_core]
  by_cases c0 : (n < objectHeaderSize ∨ ssizeMax < n)
  · rw [if_pos c0, if_pos c0]
  · rw [if_neg c0, if_neg c0]
    have e24 : byte_stream_copy_le d1 24 4 = byte_stream_copy_le d2 24 4 :=
      byte_stream_copy_le_congr d1 d2 n hago 24 4 (by omega)
    have e28 : byte_stream_copy_le d1 28 4 = byte_stream_copy_le d2 28 4 :=
      byte_stream_copy_le_congr d1 d2 n hago 28 4 (by omega)
    rw [e24, e28]
    by_cases c1 : byte_stream_copy_le d2 24 4 ≠ 2
    · rw [if_pos c1, if_pos c1]
    · rw [if_neg c1, if_neg c1]
      by_cases c2 : byte_stream_copy_le d2 28 4 ≠ 14
      · rw [if_pos c2, if_pos c2]
      · rw [if_neg c2, if_neg c2]
        by_cases c3 : n < objectHeaderSize + btreeHeaderSize
        · rw [if_pos c3, if_pos c3]
        · rw [if_neg c3, if_neg c3]
          have eHdr : libfsapfs_btree_header_read_data d1 objectHeaderSize =
              libfsapfs_btree_header_read_data d2 objectHeaderSize :=
            header_read_congr d1 d2 n hago objectHeaderSize (by omega)
          rw [eHdr]
          by_cases c4 : (libfsapfs_btree_header_read_data d2 objectHeaderSize).flags ≠ 3
          · rw [if_pos c4, if_pos c4]
          · rw [if_neg c4, if_neg c4]
            by_cases c5 : n < objectHeaderSize + btreeHeaderSize + btreeFooterSize
            · rw [if_pos c5, if_pos c5]
            · rw [if_neg c5, if_neg c5]
              have eFtr : libfsapfs_btree_footer_read_data d1 (n - btreeFooterSize) =
                  libfsapfs_btree_footer_read_data d2 (n - btreeFooterSize) :=
                footer_read_congr d1 d2 n hago (n - btreeFooterSize) (by omega)
              rw [eFtr]
              cases hacc : accounting_chain
                  (libfsapfs_btree_header_read_data d2 objectHeaderSize)
                  (n - (objectHeaderSize + btreeHeaderSize) - btreeFooterSize) with
              | err e => rfl
              | ok r =>
                  dsimp only
                  by_cases c6 : (libfsapfs_btree_footer_read_data d2
                      (n - btreeFooterSize)).key_size ≠ 0
                  · rw [if_pos c6, if_pos c6]
                  · rw [if_neg c6, if_neg c6]
                    by_cases c7 : (libfsapfs_btree_footer_read_data d2
                        (n - btreeFooterSize)).value_size ≠ 0
                    · rw [if_pos c7, if_pos c7]
                    · rw [if_neg c7, if_neg c7]
                      by_cases c8 : (libfsapfs_btree_header_read_data d2
                            objectHeaderSize).entries_data_size / tocRecordSize <
                          (libfsapfs_btree_footer_read_data d2
                            (n - btreeFooterSize)).number_of_entries
                      · rw [if_pos c8, if_pos c8]
                      · rw [if_neg c8, if_neg c8]
                        obtain ⟨b1, b2, b3, b4, b5⟩ :=
                          accounting_chain_ok_bounds _ _ _ hacc
                        have hbound : objectHeaderSize + btreeHeaderSize +
                            (libfsapfs_btree_header_read_data d2
                              objectHeaderSize).entries_data_offset +
                            tocRecordSize *
                            (libfsapfs_btree_footer_read_data d2
                              (n - btreeFooterSize)).number_of_entries ≤ n := by
                          have h8 : tocRecordSize *
                              (libfsapfs_btree_footer_read_data d2
                                (n - btreeFooterSize)).number_of_entries =
                              8 * (libfsapfs_btree_footer_read_data d2
                                (n - btreeFooterSize)).number_of_entries := by rw [hT]
                          rw [hT] at c8
                          push_neg at c8
                          omega
                        have eRes := resolve_entries_congr d1 d2 n hago
                          (((libfsapfs_btree_header_read_data d2
                            objectHeaderSize).entries_data_offset +
                            (objectHeaderSize + btreeHeaderSize)) % 65536)
                          ((n - btreeFooterSize) % 65536)
                          (libfsapfs_btree_header_read_data d2
                            objectHeaderSize).entries_data_size
                          (libfsapfs_btree_footer_read_data d2
                            (n - btreeFooterSize)).number_of_entries
                          (objectHeaderSize + btreeHeaderSize +
                            (libfsapfs_btree_header_read_data d2
                              objectHeaderSize).entries_data_offset)
                          hbound
                        rw [eRes]

/-- C9: the decode is deterministic in the input buffer: two calls whose
buffers agree on every byte below the given data size (in particular two
calls on byte-identical buffers) produce identical results — outcome, error
kind, decoded header/footer fields, resolved ranges, read trace and
allocation trace; no hidden state is involved. -/
theorem claim_C9 (fs : FileSystemBtree) (d1 d2 : Nat → Nat) (n : Nat)
    (hago : ∀ i, i < n → d1 i = d2 i) :
    libfsapfs_file_system_btree_read_data (some fs) (some d1) n =
      libfsapfs_file_system_btree_read_data (some fs) (some d2) n := by
  rw [read_data_some, read_data_some, read_data_core_congr d1 d2 n hago]

theorem claim_C9_witness :
    (∀ i, i < 100 → sampleEmpty i = sampleEmptyTail7 i) ∧
    libfsapfs_file_system_btree_read_data (some libfsapfs_file_system_btree_zeroed)
        (some sampleEmpty) 100 =
      libfsapfs_file_system_btree_read_data (some libfsapfs_file_system_btree_zeroed)
        (some sampleEmptyTail7) 100 :=
  ⟨by decide,
   claim_C9 libfsapfs_file_system_btree_zeroed sampleEmpty sampleEmptyTail7 100 (by decide)⟩

end LibFsApfs
